import Mathlib

/-!
Verification development for the parsync parallel file-tree
synchronization engine.  The Rust sources (src/lib.rs, src/sync.rs,
src/backends/local.rs, src/protocols/synchronizer.rs) are shallowly
embedded: paths are component lists, file contents are byte lists,
machine integers are Nat/Int, the filesystem is an explicit association
structure, and the producer/consumer pipelines are modelled as explicit
folds for their per-job effects plus a small-step machine that also
tracks the crossbeam channel senders and thread liveness, so that the
join protocol of the chunked sync engine (which retains the original
`job_tx`/`done_tx` senders for its whole lifetime) is modelled
faithfully.
-/

namespace Parsync

/-- Path of a filesystem object, as its list of components
(Rust `PathBuf`; `components().count()` is the list length). -/
abbrev FPath := List String

/-- Depth of a path: number of components (Rust `p.components().count()`). -/
def pathDepth (p : FPath) : Nat := p.length

/-- Metadata-and-content model of one regular file.  `content` is the byte
sequence, `mtime_sec`/`mtime_nsec` mirror the Unix `MetadataExt` accessors
`mtime()`/`mtime_nsec()` used by sync.rs lines 124-127.  `readable` and
`writable` model the permission bits that decide whether `File::open` /
`OpenOptions::write(true)` succeed. -/
structure FileData where
  content : List Nat
  mtime_sec : Int
  mtime_nsec : Int
  readable : Bool
  writable : Bool
  deriving DecidableEq

/-- Filesystem model: regular files, directories, and symlinks.  A symlink
entry `(link, target)` stores the target verbatim, as `fs::read_link`
reports it, whether or not the target exists (broken links permitted). -/
structure FS where
  files : List (FPath × FileData)
  dirs : List FPath
  symlinks : List (FPath × FPath)
  deriving DecidableEq

/-- Look up a regular file (Rust `std::fs::metadata` + reading). -/
def FS.getFile (fs : FS) (p : FPath) : Option FileData :=
  (fs.files.find? (fun e => decide (e.1 = p))).map (·.2)

/-- Create or overwrite a regular file at `p`. -/
def FS.setFile (fs : FS) (p : FPath) (d : FileData) : FS :=
  { fs with files := (p, d) :: fs.files.filter (fun e => !decide (e.1 = p)) }

/-- Look up a symlink's stored target (Rust `fs::read_link`). -/
def FS.getLink (fs : FS) (p : FPath) : Option FPath :=
  (fs.symlinks.find? (fun e => decide (e.1 = p))).map (·.2)

/-- Create or replace a symlink at `link` pointing at `target`. -/
def FS.setLink (fs : FS) (link target : FPath) : FS :=
  { fs with symlinks := (link, target) :: fs.symlinks.filter (fun e => !decide (e.1 = link)) }

/-- Test whether a directory exists. -/
def FS.hasDir (fs : FS) (p : FPath) : Bool := decide (p ∈ fs.dirs)

/-- Model of `std::fs::create_dir_all`: records the directory (intermediate
parents elided from the model); idempotent, never fails in the model. -/
def FS.createDirAll (fs : FS) (p : FPath) : FS :=
  if p ∈ fs.dirs then fs else { fs with dirs := p :: fs.dirs }

/-- Model of `Path::exists`: a file, directory or symlink is present. -/
def FS.pathExists (fs : FS) (p : FPath) : Bool :=
  (fs.getFile p).isSome || fs.hasDir p || (fs.getLink p).isSome

/-- Model of `Path::is_dir` with symlink resolution (one level), as used by
`file.is_dir()` in synchronizer.rs line 128. -/
def FS.isDirResolved (fs : FS) (p : FPath) : Bool :=
  fs.hasDir p ||
    (match fs.getLink p with
     | some t => fs.hasDir t
     | none => false)

/-- Error taxonomy of backends/mod.rs (`SyncError`), with the io error
carried as a message string. -/
inductive SyncError where
  | Io (msg : String)
  | NotFound (path : String)
  | Other (msg : String)
  deriving DecidableEq

/-! ### Adler-32 (adler crate, as used by sync.rs lines 224-253) -/

/-- One byte step of the Adler-32 state update: `a := (a + byte) % 65521`,
`b := (b + a) % 65521`. -/
def adlerStep (st : Nat × Nat) (byte : Nat) : Nat × Nat :=
  let a := (st.1 + byte) % 65521
  (a, (st.2 + a) % 65521)

/-- Adler-32 checksum of a byte sequence: fold the step from `(1, 0)` and
return `b * 2^16 + a` (the crate's `checksum()`). -/
def adler32 (l : List Nat) : Nat :=
  let st := l.foldl adlerStep (1, 0)
  st.2 * 65536 + st.1

/-! ### Chunked sync engine (src/sync.rs) -/

/-- Default chunk size, sync.rs line 21: 1 MiB. -/
def DEFAULT_CHUNK_SIZE : Nat := 1 <<< 20

/-- Large-file threshold, sync.rs line 22: 32 MiB. -/
def LARGE_FILE_THRESHOLD : Nat := 32 * 1024 * 1024

/-- Chunk job record, sync.rs lines 25-31. -/
structure ChunkJob where
  src_path : FPath
  dst_path : FPath
  chunk_index : Nat
  offset : Nat
  size : Nat
  deriving DecidableEq

/-- File job record, sync.rs lines 34-38; `size` is the length reported by
the discovery walk. -/
structure FileJob where
  src_path : FPath
  dst_path : FPath
  size : Nat
  deriving DecidableEq

/-- Number of chunk jobs for a file: `file.size.div_ceil(chunk_size)`
(sync.rs line 166). -/
def numChunks (size chunk_size : Nat) : Nat := (size + chunk_size - 1) / chunk_size

/-- Chunk-job generation loop of sync.rs lines 166-182: chunk `i` starts at
`i * chunk_size`; the final chunk is truncated to the remainder. -/
def makeChunkJobs (src_path dst_path : FPath) (size chunk_size : Nat) : List ChunkJob :=
  (List.range (numChunks size chunk_size)).map fun chunk_index =>
    { src_path := src_path, dst_path := dst_path
      chunk_index := chunk_index, offset := chunk_index * chunk_size
      size := if chunk_index * chunk_size + chunk_size > size then
                size - chunk_index * chunk_size
              else chunk_size }

/-- Metadata short-circuit of sync.rs lines 119-143 (unix configuration):
skip when the destination exists and length, mtime seconds and mtime
nanoseconds are all equal. -/
def metadataSkip (sd : FileData) (dmeta : Option FileData) : Bool :=
  match dmeta with
  | some dd =>
      decide (sd.content.length = dd.content.length) &&
      decide (sd.mtime_sec = dd.mtime_sec) &&
      decide (sd.mtime_nsec = dd.mtime_nsec)
  | none => false

/-- Model of `std::fs::copy(src, dst)` as used at sync.rs line 153: succeeds
when the source is readable and the destination is absent or writable;
the destination receives the source bytes, source permission bits, and a
fresh (`now`) modification time; returns the byte count copied. -/
def fsCopy (src dst : FS) (srcPath dstPath : FPath) (now : Int × Int) :
    Option (FS × Nat) :=
  match src.getFile srcPath with
  | none => none
  | some sd =>
      if sd.readable &&
         (match dst.getFile dstPath with
          | some dd => dd.writable
          | none => true) then
        some (dst.setFile dstPath
                { content := sd.content, mtime_sec := now.1, mtime_nsec := now.2,
                  readable := sd.readable, writable := sd.writable },
              sd.content.length)
      else none

/-- Producer body for one file job (sync.rs lines 111-183).  Returns the
updated destination filesystem, the progress messages sent on the done
channel, and the chunk jobs enqueued. -/
def producerFile (src : FS) (chunk_size : Nat) (now : Int × Int) (dst : FS)
    (file : FileJob) : FS × List Nat × List ChunkJob :=
  match src.getFile file.src_path with
  | none => (dst, [], [])
  | some src_meta =>
      if metadataSkip src_meta (dst.getFile file.dst_path) then
        (dst, [file.size], [])
      else if (dst.getFile file.dst_path).isNone ||
              decide (file.size < LARGE_FILE_THRESHOLD) then
        match fsCopy src dst file.src_path file.dst_path now with
        | some (dst', copied) => (dst', [copied], [])
        | none => (dst, [0], [])
      else
        (dst, [], makeChunkJobs file.src_path file.dst_path file.size chunk_size)

/-- Byte range read at an offset: `seek(offset)` then one `read` into a
buffer of the given length (short only at end of file). -/
def readChunk (content : List Nat) (offset len : Nat) : List Nat :=
  (content.drop offset).take len

/-- Overwrite-in-place semantics of seek-and-`write_all`: bytes before the
offset are kept, a hole past end-of-file reads back as zeros, bytes after
the written range are kept. -/
def writeAt (content : List Nat) (offset : Nat) (buf : List Nat) : List Nat :=
  content.take offset ++ List.replicate (offset - content.length) 0 ++
    buf ++ content.drop (offset + buf.length)

/-- Model of `write_chunk` (sync.rs lines 292-297): open the destination
write-only without create, seek, `write_all`.  Fails (leaving the
filesystem unchanged) when the file is absent or not writable; the caller
ignores the failure (`let _ = ...`). -/
def write_chunk (dst : FS) (dst_path : FPath) (offset : Nat) (buf : List Nat) : FS :=
  match dst.getFile dst_path with
  | some dd =>
      if dd.writable then
        dst.setFile dst_path { dd with content := writeAt dd.content offset buf }
      else dst
  | none => dst

/-- Worker body for one chunk job (sync.rs lines 197-263).  Returns the
updated destination filesystem, the progress message sent, and whether the
fallback/changed write path ran. -/
def workerChunk (src : FS) (dst : FS) (job : ChunkJob) : FS × Nat × Bool :=
  match src.getFile job.src_path with
  | none => (dst, 0, false)
  | some sd =>
      if !sd.readable then (dst, 0, false)
      else
        let src_buf := readChunk sd.content job.offset job.size
        let n := src_buf.length
        if n = 0 then (dst, 0, false)
        else
          match dst.getFile job.dst_path with
          | some dd =>
              if dd.readable && dd.writable then
                let dst_buf := readChunk dd.content job.offset n
                let m := dst_buf.length
                if decide (n ≠ m) || decide (adler32 src_buf ≠ adler32 dst_buf) then
                  (write_chunk dst job.dst_path job.offset src_buf, n, true)
                else
                  (dst, n, false)
              else
                (write_chunk dst job.dst_path job.offset src_buf, n, true)
          | none => (write_chunk dst job.dst_path job.offset src_buf, n, true)

/-- Kind of a directory entry as reported by the walk (walkdir's
`file_type()` without following links). -/
inductive EntryKind where
  | file
  | dir
  | symlink
  | other
  deriving DecidableEq

/-- One successfully listed walk entry, by its path relative to the walk
root. -/
structure WalkEntry where
  rel : FPath
  kind : EntryKind
  deriving DecidableEq

/-- Discovery pass of sync.rs lines 55-82: each `WalkDir` item either
errored (propagated with `?` as an `Other` at line 59) or is an entry;
directories are mirrored at the destination immediately when absent,
files are recorded as `FileJob`s with their walk-time size.  Returns the
destination tree as left by the pass (directories created before an error
persist) together with the collected file jobs or the walk error. -/
def syncWalk (src : FS) (src_root dst_root : FPath) :
    List (Except String WalkEntry) → FS → FS × Except SyncError (List FileJob)
  | [], dst => (dst, Except.ok [])
  | Except.error e :: _, dst =>
      (dst, Except.error (SyncError.Other ("WalkDir error: " ++ e)))
  | Except.ok ent :: rest, dst =>
      match ent.kind with
      | EntryKind.dir =>
          let dpath := dst_root ++ ent.rel
          let dst' := if dst.pathExists dpath then dst else dst.createDirAll dpath
          syncWalk src src_root dst_root rest dst'
      | EntryKind.file =>
          let spath := src_root ++ ent.rel
          let size := ((src.getFile spath).map (fun d => d.content.length)).getD 0
          match syncWalk src src_root dst_root rest dst with
          | (dst', Except.error e) => (dst', Except.error e)
          | (dst', Except.ok jobs) =>
              (dst', Except.ok ({ src_path := spath, dst_path := dst_root ++ ent.rel,
                                  size := size } :: jobs))
      | _ => syncWalk src src_root dst_root rest dst

/-- Producer phase over the collected file jobs (sync.rs lines 108-188):
fold `producerFile`, accumulating progress messages and chunk jobs. -/
def producerRun (src : FS) (chunk_size : Nat) (now : Int × Int)
    (files : List FileJob) (dst : FS) : FS × List Nat × List ChunkJob :=
  files.foldl
    (fun st f =>
      let r := producerFile src chunk_size now st.1 f
      (r.1, st.2.1 ++ r.2.1, st.2.2 ++ r.2.2))
    (dst, [], [])

/-- Worker phase over the enqueued chunk jobs (sync.rs lines 190-265):
each job is claimed and processed exactly once; progress messages are
collected from the done channel. -/
def workerRun (src : FS) (jobs : List ChunkJob) (dst : FS) : FS × List Nat :=
  jobs.foldl
    (fun st j =>
      let r := workerChunk src st.1 j
      (r.1, st.2 ++ [r.2.1]))
    (dst, [])

/-- Whole engine invocation `sync_dir_chunked` (sync.rs lines 44-290):
discovery walk, then the producer/worker threads process every job.  The
first component is the value the invocation returns: `some (error e)`
when the discovery walk fails (the `?` at line 59 fires before any
channel or thread exists), and `none` when the walk succeeds — the
original `job_tx`/`done_tx` senders of lines 101-102 are never dropped
(only the producer's clones at lines 185-186 are), so after the threads
finish their jobs the workers stay blocked in `job_rx.iter()` and the
progress thread in `done_rx.iter()`, the joins at lines 284-287 block
forever, and the `Ok(())` at line 289 is never reached.  The remaining
components are the destination tree and the progress-message trace as
left by the threads' completed job processing. -/
def sync_dir_chunked (src : FS) (src_root dst_root : FPath) (chunk_size : Nat)
    (now : Int × Int) (entries : List (Except String WalkEntry)) (dst : FS) :
    Option (Except SyncError Unit) × FS × List Nat :=
  match syncWalk src src_root dst_root entries dst with
  | (dst1, Except.error e) => (some (Except.error e), dst1, [])
  | (dst1, Except.ok files) =>
      let p := producerRun src chunk_size now files dst1
      let w := workerRun src p.2.2 p.1
      (none, w.1, p.2.1 ++ w.2)

/-! ### Small-step engine machine with channel senders and thread exits -/

/-- State of the producer/worker/progress job system of sync.rs lines
100-287: the producer's remaining files and liveness, the job channel's
buffered chunk jobs and live sender count, the done channel's live sender
count, the number of running worker threads, the progress thread's
liveness, and the destination tree with the progress trace.  A
crossbeam `iter()` loop ends only once the channel is empty and every
sender has been dropped. -/
structure EngineState where
  pending : List FileJob
  producer_alive : Bool
  queue : List ChunkJob
  job_senders : Nat
  done_senders : Nat
  workers : Nat
  progress_alive : Bool
  dst : FS
  msgs : List Nat

/-- Initial state of one engine invocation with `n` worker threads
(`num_cpus::get().max(2)`, line 191, so the real `n` is at least 2): the
job channel has two live senders (the original `job_tx` of line 101 and
the producer's clone of line 109) and the done channel `2 + n` (the
original `done_tx` of line 102, `producer_done_tx` of line 105, and one
clone per worker, line 195).  The original `job_tx` and `done_tx` stay
owned by `sync_dir_chunked` itself until it returns — which is the slip:
no code path ever drops them. -/
def engineInit (n : Nat) (files : List FileJob) (dst : FS) : EngineState :=
  { pending := files, producer_alive := true, queue := [], job_senders := 2,
    done_senders := 2 + n, workers := n, progress_alive := true,
    dst := dst, msgs := [] }

/-- Interleaved small-step semantics of the sync pipeline, including the
channel-disconnect protocol: the producer processes files and on finishing
drops its two sender clones (lines 184-186); a worker claims the head
chunk job, and exits its `job_rx.iter()` loop — dropping its done-sender
clone — only when the job queue is empty and the job channel has no live
sender; the progress thread exits `done_rx.iter()` only when the done
channel has no live sender.  No step drops the original senders, because
the source has no code that does. -/
inductive EngineStep (src : FS) (chunk_size : Nat) (now : Int × Int) :
    EngineState → EngineState → Prop where
  | produce (f : FileJob) (rest : List FileJob) (st : EngineState)
      (hp : st.pending = f :: rest) (ha : st.producer_alive = true) :
      EngineStep src chunk_size now st
        { st with
          pending := rest
          queue := st.queue ++ (producerFile src chunk_size now st.dst f).2.2
          dst := (producerFile src chunk_size now st.dst f).1
          msgs := st.msgs ++ (producerFile src chunk_size now st.dst f).2.1 }
  | producer_exit (st : EngineState)
      (hp : st.pending = []) (ha : st.producer_alive = true) :
      EngineStep src chunk_size now st
        { st with
          producer_alive := false
          job_senders := st.job_senders - 1
          done_senders := st.done_senders - 1 }
  | consume (j : ChunkJob) (rest : List ChunkJob) (st : EngineState)
      (hq : st.queue = j :: rest) (hw : 0 < st.workers) :
      EngineStep src chunk_size now st
        { st with
          queue := rest
          dst := (workerChunk src st.dst j).1
          msgs := st.msgs ++ [(workerChunk src st.dst j).2.1] }
  | worker_exit (st : EngineState)
      (hq : st.queue = []) (hs : st.job_senders = 0) (hw : 0 < st.workers) :
      EngineStep src chunk_size now st
        { st with
          workers := st.workers - 1
          done_senders := st.done_senders - 1 }
  | progress_exit (st : EngineState)
      (hs : st.done_senders = 0) (ha : st.progress_alive = true) :
      EngineStep src chunk_size now st
        { st with progress_alive := false }

/-- Sender-count invariant: while the producer runs, its clone and the
retained original keep two job senders alive, afterwards the retained
original alone keeps one; the done channel additionally keeps one sender
per running worker. -/
def engineInv (st : EngineState) : Prop :=
  1 ≤ st.job_senders ∧
  (st.producer_alive = true → 2 ≤ st.job_senders) ∧
  1 + st.workers ≤ st.done_senders ∧
  (st.producer_alive = true → 2 + st.workers ≤ st.done_senders)

/-! ### Parallel copy engine (src/lib.rs lines 40-318, local-to-local path) -/

/-- Include/exclude filtering of lib.rs lines 78-87 and 443-452: the
include pattern (when given) must match the absolute path, the exclude
pattern (when given) must not. -/
def matchesFilters (include? exclude? : Option (FPath → Bool)) (p : FPath) : Bool :=
  (match include? with
   | some f => f p
   | none => true) &&
  !(match exclude? with
    | some f => f p
    | none => false)

/-- Copy-walk entry: relative path, entry kind (walkdir `file_type()`
without following links, so a symlink reports as `symlink`, never as
`file`), and walk-time size. -/
structure CopyEntry where
  rel : FPath
  kind : EntryKind
  size : Nat
  deriving DecidableEq

/-- Producer of the copy engine (lib.rs lines 66-117): erroring walk items
are dropped by `filter_map(|e| e.ok())`; entries whose `file_type()` is
not a regular file are skipped (`!entry.file_type().is_file()`); the
filters are applied to the absolute path; survivors are sent as
`(relative_path, size)` jobs. -/
def copyProducerJobs (entries : List (Except String CopyEntry)) (source_path : FPath)
    (include? exclude? : Option (FPath → Bool)) : List (FPath × Nat) :=
  entries.filterMap fun e =>
    match e with
    | Except.error _ => none
    | Except.ok ent =>
        match ent.kind with
        | EntryKind.file =>
            if matchesFilters include? exclude? (source_path ++ ent.rel) then
              some (ent.rel, ent.size)
            else none
        | _ => none

/-- Parent of a destination file path (`dst_file.parent()`). -/
def parentOf (p : FPath) : FPath := p.dropLast

/-- Copy worker body for one `(rel_path, size)` job on the local-to-local
fast path (lib.rs lines 155-265).  In dry-run mode progress advances by
the declared size and nothing else happens.  Otherwise the parent
directory is created, `fast_copy` runs with its fallbacks collapsed into
one success test (source file present and readable, destination absent or
writable); on success progress advances by `copied.max(size)` and the
destination receives the source bytes with the source mtime preserved
unless `no_preserve_times`; when every tier fails one error is pushed and
progress still advances by the declared size. -/
def copyWorkerStep (src : FS) (source_path dest_path : FPath)
    (dry_run no_preserve_times : Bool) (now : Int × Int)
    (st : FS × List SyncError × Nat) (job : FPath × Nat) :
    FS × List SyncError × Nat :=
  let dst := st.1
  let errs := st.2.1
  let prog := st.2.2
  if dry_run then (dst, errs, prog + job.2)
  else
    let src_file := source_path ++ job.1
    let dst_file := dest_path ++ job.1
    let dst1 := dst.createDirAll (parentOf dst_file)
    match src.getFile src_file with
    | some sd =>
        if sd.readable &&
           (match dst1.getFile dst_file with
            | some dd => dd.writable
            | none => true) then
          let copied := sd.content.length
          let data : FileData :=
            { content := sd.content
              mtime_sec := if no_preserve_times then now.1 else sd.mtime_sec
              mtime_nsec := if no_preserve_times then now.2 else sd.mtime_nsec
              readable := sd.readable, writable := sd.writable }
          (dst1.setFile dst_file data, errs, prog + max copied job.2)
        else
          (dst1, errs ++ [SyncError.Other "Failed to copy"], prog + job.2)
    | none =>
        (dst1, errs ++ [SyncError.Other "Failed to copy"], prog + job.2)

/-- Whole copy engine invocation `copy` (lib.rs lines 40-318, local
backends): producer, workers over the job channel, joins, then the error
collector is inspected — empty collector gives `Ok(())`, otherwise a
single aggregate `Other` error with the count (lib.rs lines 310-317).
Returns (result, destination tree, progress total, collected errors). -/
def copy (entries : List (Except String CopyEntry)) (src : FS)
    (source_path : FPath) (dst : FS) (dest_path : FPath)
    (include? exclude? : Option (FPath → Bool))
    (dry_run no_preserve_times : Bool) (now : Int × Int) :
    Except SyncError Unit × FS × Nat × List SyncError :=
  let jobs := copyProducerJobs entries source_path include? exclude?
  let r := jobs.foldl (copyWorkerStep src source_path dest_path dry_run no_preserve_times now)
    (dst, [], 0)
  (if r.2.1.isEmpty then Except.ok ()
   else Except.error (SyncError.Other
     (toString r.2.1.length ++ " errors occurred during copy")),
   r.1, r.2.2, r.2.1)

/-! ### Parallel delete engine (src/lib.rs lines 418-560) -/

/-- Component-wise path containment: `q` lies at or below `p` exactly when
`p` is a leading run of `q`'s components. -/
def startsWith (q p : FPath) : Bool := decide (q.take p.length = p)

/-- Delete-walk entry: absolute path plus the kind its metadata reports. -/
structure DelEntry where
  path : FPath
  kind : EntryKind
  deriving DecidableEq

/-- Test for the regular-file metadata case (`meta.is_file()`). -/
def EntryKind.isFile : EntryKind → Bool
  | EntryKind.file => true
  | _ => false

/-- Test for the directory metadata case (`meta.is_dir()`). -/
def EntryKind.isDir : EntryKind → Bool
  | EntryKind.dir => true
  | _ => false

/-- Entries surviving the delete producer's walk (lib.rs lines 474-488):
erroring walk items are dropped by `filter_map(|e| e.ok())` and the
include/exclude filters run on each path. -/
def deleteListed (entries : List (Except String DelEntry))
    (include? exclude? : Option (FPath → Bool)) : List DelEntry :=
  entries.filterMap fun e =>
    match e with
    | Except.error _ => none
    | Except.ok d => if matchesFilters include? exclude? d.path then some d else none

/-- File jobs of the delete producer (lib.rs lines 490-497): matching
files are sent immediately, in walk order, tagged `is_directory = false`. -/
def deleteFilesQueue (entries : List (Except String DelEntry))
    (include? exclude? : Option (FPath → Bool)) : List (FPath × Bool) :=
  ((deleteListed entries include? exclude?).filter
    (fun d => d.kind.isFile)).map fun d => (d.path, false)

/-- Buffered directories after the producer's sort (lib.rs lines 498-504):
`dirs.sort_by_key(|b| Reverse(b.components().count()))` — Rust's stable
sort by descending component count, modelled by the stable insertion sort
under the by-descending-depth relation. -/
def deleteSortedDirs (entries : List (Except String DelEntry))
    (include? exclude? : Option (FPath → Bool)) : List FPath :=
  List.insertionSort (fun a b => pathDepth b ≤ pathDepth a)
    (((deleteListed entries include? exclude?).filter
      (fun d => d.kind.isDir)).map (·.path))

/-- Job queue built by the delete producer (lib.rs lines 472-512): every
matching file, in walk order, followed by the directories sorted
deepest-first, tagged `is_directory = true` (lines 505-510). -/
def deleteQueue (entries : List (Except String DelEntry))
    (include? exclude? : Option (FPath → Bool)) : List (FPath × Bool) :=
  deleteFilesQueue entries include? exclude? ++
    (deleteSortedDirs entries include? exclude?).map fun p => (p, true)

/-- Model of `LocalBackend::delete` (backends/local.rs lines 76-83):
directories are removed recursively with everything below them; otherwise
`remove_file` removes a regular file or symlink, and errors when the path
is absent. -/
def backendDelete (fs : FS) (p : FPath) : Except SyncError FS :=
  if fs.hasDir p then
    Except.ok
      { files := fs.files.filter (fun e => !startsWith e.1 p)
        dirs := fs.dirs.filter (fun d => !startsWith d p)
        symlinks := fs.symlinks.filter (fun e => !startsWith e.1 p) }
  else
    match fs.getFile p with
    | some _ => Except.ok { fs with files := fs.files.filter (fun e => !decide (e.1 = p)) }
    | none =>
        match fs.getLink p with
        | some _ =>
            Except.ok { fs with symlinks := fs.symlinks.filter (fun e => !decide (e.1 = p)) }
        | none => Except.error (SyncError.Io "No such file or directory")

/-- Delete worker body for one queue item (lib.rs lines 524-539): dry-run
only logs; otherwise `backend.delete` runs, success advances progress by
one item, failure is pushed onto the collector. -/
def deleteWorkerStep (dry_run : Bool) (st : FS × List SyncError × Nat)
    (job : FPath × Bool) : FS × List SyncError × Nat :=
  if dry_run then st
  else
    match backendDelete st.1 job.1 with
    | Except.ok fs' => (fs', st.2.1, st.2.2 + 1)
    | Except.error e => (st.1, st.2.1 ++ [e], st.2.2)

/-- Whole delete engine invocation `delete` (lib.rs lines 418-560):
producer builds the queue, workers consume it in order, joins, then the
collector is inspected — empty gives `Ok(())`, otherwise one aggregate
`Other` error with the count (lib.rs lines 552-559). -/
def delete (entries : List (Except String DelEntry))
    (include? exclude? : Option (FPath → Bool)) (dry_run : Bool) (fs : FS) :
    Except SyncError Unit × FS × Nat × List SyncError :=
  let r := (deleteQueue entries include? exclude?).foldl (deleteWorkerStep dry_run)
    (fs, [], 0)
  (if r.2.1.isEmpty then Except.ok ()
   else Except.error (SyncError.Other
     (toString r.2.1.length ++ " errors occurred during delete")),
   r.1, r.2.2, r.2.1)

/-! ### Synchronizer copy path (src/protocols/synchronizer.rs lines 115-180) -/

/-- One `sync_files` iteration for a `(file, size)` job (synchronizer.rs
lines 123-179): empty directories are recreated; a symlink (as reported by
`source.is_symlink`, i.e. `symlink_metadata`) is recreated via
`sink.create_symlink` with the `read_link` target verbatim — broken links
included, since `read_link` does not resolve the target — and when
`read_link` fails the fallback links to the source path itself; anything
else is copied as a regular file via `sink.copy_file`.  Dry-run only
logs. -/
def sync_files_step (src : FS) (source_root dest_root : FPath) (dry_run : Bool)
    (snk : FS) (job : FPath × Nat) : FS :=
  let file := job.1
  let rel := file.drop source_root.length
  let dest_file := dest_root ++ rel
  if job.2 == 0 && src.isDirResolved file then
    if dry_run then snk else snk.createDirAll dest_file
  else if (src.getLink file).isSome then
    match src.getLink file with
    | some target => if dry_run then snk else snk.setLink dest_file target
    | none => if dry_run then snk else snk.setLink dest_file file
  else
    match src.getFile file with
    | some sd =>
        if dry_run then snk
        else snk.setFile dest_file sd
    | none => snk

/-! ### Helper lemmas -/

theorem getFile_setFile_self (fs : FS) (p : FPath) (d : FileData) :
    (fs.setFile p d).getFile p = some d := by
  simp [FS.setFile, FS.getFile, List.find?]

theorem makeChunkJobs_length (sp dp : FPath) (s cs : Nat) :
    (makeChunkJobs sp dp s cs).length = numChunks s cs := by
  simp [makeChunkJobs]

theorem makeChunkJobs_get (sp dp : FPath) (s cs i : Nat)
    (h : i < (makeChunkJobs sp dp s cs).length) :
    (makeChunkJobs sp dp s cs).get ⟨i, h⟩ =
      { src_path := sp, dst_path := dp, chunk_index := i, offset := i * cs
        size := if i * cs + cs > s then s - i * cs else cs } := by
  simp [makeChunkJobs]

theorem chunk_size_eq_min (s cs off : Nat) :
    (if off + cs > s then s - off else cs) = min cs (s - off) := by
  rw [Nat.min_def]
  split <;> split <;> omega

theorem numChunks_mul_le (s cs i : Nat) (hcs : 0 < cs)
    (hi : i < numChunks s cs) : i * cs < s := by
  unfold numChunks at hi
  have h1 : i ≤ (s + cs - 1) / cs - 1 := by omega
  have h2 : i * cs ≤ ((s + cs - 1) / cs - 1) * cs :=
    Nat.mul_le_mul_right cs h1
  have h3 : ((s + cs - 1) / cs) * cs ≤ s + cs - 1 := Nat.div_mul_le_self _ _
  have h4 : 0 < (s + cs - 1) / cs := by omega
  have h5 : ((s + cs - 1) / cs - 1) * cs + cs = ((s + cs - 1) / cs) * cs := by
    have := Nat.succ_pred_eq_of_pos h4
    calc ((s + cs - 1) / cs - 1) * cs + cs
        = (((s + cs - 1) / cs - 1) + 1) * cs := by ring
      _ = ((s + cs - 1) / cs) * cs := by rw [Nat.sub_add_cancel h4]
  omega

theorem div_lt_numChunks (s cs b : Nat) (hcs : 0 < cs) (hb : b < s) :
    b / cs < numChunks s cs := by
  unfold numChunks
  have hs : 1 ≤ s := by omega
  have hb' : b ≤ s - 1 := by omega
  have h1 : b / cs ≤ (s - 1) / cs := Nat.div_le_div_right hb'
  have h2 : (s - 1 + cs) / cs = (s - 1) / cs + 1 := Nat.add_div_right _ hcs
  have h3 : s + cs - 1 = s - 1 + cs := by omega
  rw [h3]
  omega

theorem chunkJobs_cover (sp dp : FPath) (s cs : Nat) (hcs : 0 < cs) (b : Nat) :
    b < s ↔ ∃ j ∈ makeChunkJobs sp dp s cs, j.offset ≤ b ∧ b < j.offset + j.size := by
  constructor
  · intro hb
    have hmod := Nat.mod_lt b hcs
    have hdm := Nat.mod_add_div' b cs
    refine ⟨{ src_path := sp, dst_path := dp, chunk_index := b / cs, offset := b / cs * cs
              size := if b / cs * cs + cs > s then s - b / cs * cs else cs }, ?_, ?_, ?_⟩
    · simp only [makeChunkJobs, List.mem_map, List.mem_range]
      exact ⟨b / cs, div_lt_numChunks s cs b hcs hb, rfl⟩
    · exact Nat.div_mul_le_self b cs
    · show b < b / cs * cs + (if b / cs * cs + cs > s then s - b / cs * cs else cs)
      split <;> omega
  · rintro ⟨j, hj, hlo, hhi⟩
    simp only [makeChunkJobs, List.mem_map, List.mem_range] at hj
    obtain ⟨i, hi, rfl⟩ := hj
    simp only at hlo hhi
    have hlt := numChunks_mul_le s cs i hcs hi
    split at hhi <;> omega

theorem chunkJobs_disjoint (sp dp : FPath) (s cs i j : Nat)
    (hi : i < (makeChunkJobs sp dp s cs).length)
    (hj : j < (makeChunkJobs sp dp s cs).length) (hij : i < j) :
    ((makeChunkJobs sp dp s cs).get ⟨i, hi⟩).offset +
      ((makeChunkJobs sp dp s cs).get ⟨i, hi⟩).size ≤
    ((makeChunkJobs sp dp s cs).get ⟨j, hj⟩).offset := by
  rw [makeChunkJobs_get, makeChunkJobs_get]
  have h1 : i * cs + cs ≤ j * cs := by
    calc i * cs + cs = (i + 1) * cs := by ring
      _ ≤ j * cs := Nat.mul_le_mul_right cs hij
  show i * cs + (if i * cs + cs > s then s - i * cs else cs) ≤ j * cs
  split <;> omega

/-! ### Claim theorems -/

/-- C2: a file job whose destination exists with equal byte length and
exactly equal modification time (seconds and nanoseconds) is skipped
entirely by the producer: the destination filesystem is returned untouched
(so the destination file keeps its content and modification time, and no
file bytes are read or written), no chunk job is enqueued, and the one
progress message is the file's full declared size. -/
theorem sync_metadata_skip_leaves_destination_untouched
    (src dst : FS) (chunk_size : Nat) (now : Int × Int) (f : FileJob)
    (sd dd : FileData)
    (hs : src.getFile f.src_path = some sd)
    (hd : dst.getFile f.dst_path = some dd)
    (hlen : sd.content.length = dd.content.length)
    (hsec : sd.mtime_sec = dd.mtime_sec)
    (hnsec : sd.mtime_nsec = dd.mtime_nsec) :
    producerFile src chunk_size now dst f = (dst, [f.size], []) ∧
    (producerFile src chunk_size now dst f).1.getFile f.dst_path = some dd := by
  have hskip : metadataSkip sd (dst.getFile f.dst_path) = true := by
    rw [hd]
    simp [metadataSkip, hlen, hsec, hnsec]
  have : producerFile src chunk_size now dst f = (dst, [f.size], []) := by
    unfold producerFile
    rw [hs]
    simp only [hskip, if_true]
  exact ⟨this, by rw [this]; exact hd⟩

/-- C2 witness: concrete skip instance. -/
theorem sync_metadata_skip_witness :
    producerFile
      (FS.mk [(["s", "a"], ⟨[7, 8], 5, 6, true, true⟩)] [] [])
      4 (9, 9)
      (FS.mk [(["d", "a"], ⟨[1, 2], 5, 6, true, true⟩)] [] [])
      ⟨["s", "a"], ["d", "a"], 2⟩ =
      (FS.mk [(["d", "a"], ⟨[1, 2], 5, 6, true, true⟩)] [] [], [2], []) :=
  (sync_metadata_skip_leaves_destination_untouched _ _ 4 (9, 9) _
      ⟨[7, 8], 5, 6, true, true⟩ ⟨[1, 2], 5, 6, true, true⟩
      (by decide) (by decide) (by decide) (by decide) (by decide)).1

/-- C3 counterexample: a file of size exactly 32 MiB (the threshold), with
an existing, metadata-mismatched destination, does get chunk jobs — 32 of
them — although its size does not exceed the threshold, so "only for files
whose size exceeds the 32 MiB threshold" fails at the boundary. -/
theorem chunk_jobs_at_threshold_cex :
    ((producerFile (FS.mk [(["s", "big"], ⟨[], 0, 0, true, true⟩)] [] [])
        1048576 (0, 0)
        (FS.mk [(["d", "big"], ⟨[0], 0, 0, true, true⟩)] [] [])
        ⟨["s", "big"], ["d", "big"], 32 * 1024 * 1024⟩).2.2.length = 32) ∧
    ¬ LARGE_FILE_THRESHOLD < 32 * 1024 * 1024 := by
  constructor
  · rfl
  · decide

/-- C3 (amended: threshold reached, not strictly exceeded): chunk jobs are
produced exactly for files whose destination exists, which fail the
metadata-equality skip, and whose size is at least the 32 MiB threshold;
the producer enqueues `ceil(size / chunk_size)` jobs, job `i` at offset
`i * chunk_size` with length `chunk_size` truncated to the remainder on
the final chunk, and the jobs' byte ranges are pairwise disjoint and
exactly cover `[0, size)`. -/
theorem chunk_job_generation (src dst : FS) (chunk_size : Nat) (now : Int × Int)
    (f : FileJob) (hcs : 0 < chunk_size) :
    (∀ dst' msgs jobs,
       producerFile src chunk_size now dst f = (dst', msgs, jobs) → jobs ≠ [] →
       (dst.getFile f.dst_path).isSome = true ∧
       LARGE_FILE_THRESHOLD ≤ f.size ∧
       (∃ sd, src.getFile f.src_path = some sd ∧
          metadataSkip sd (dst.getFile f.dst_path) = false) ∧
       dst' = dst ∧ msgs = [] ∧
       jobs = makeChunkJobs f.src_path f.dst_path f.size chunk_size) ∧
    (∀ sd dd, src.getFile f.src_path = some sd →
       dst.getFile f.dst_path = some dd →
       metadataSkip sd (some dd) = false → LARGE_FILE_THRESHOLD ≤ f.size →
       producerFile src chunk_size now dst f =
         (dst, [], makeChunkJobs f.src_path f.dst_path f.size chunk_size)) ∧
    (makeChunkJobs f.src_path f.dst_path f.size chunk_size).length =
      numChunks f.size chunk_size ∧
    (∀ i (h : i < (makeChunkJobs f.src_path f.dst_path f.size chunk_size).length),
       ((makeChunkJobs f.src_path f.dst_path f.size chunk_size).get ⟨i, h⟩).offset =
         i * chunk_size ∧
       ((makeChunkJobs f.src_path f.dst_path f.size chunk_size).get ⟨i, h⟩).size =
         min chunk_size (f.size - i * chunk_size)) ∧
    (∀ i j (hi : i < (makeChunkJobs f.src_path f.dst_path f.size chunk_size).length)
       (hj : j < (makeChunkJobs f.src_path f.dst_path f.size chunk_size).length),
       i < j →
       ((makeChunkJobs f.src_path f.dst_path f.size chunk_size).get ⟨i, hi⟩).offset +
         ((makeChunkJobs f.src_path f.dst_path f.size chunk_size).get ⟨i, hi⟩).size ≤
       ((makeChunkJobs f.src_path f.dst_path f.size chunk_size).get ⟨j, hj⟩).offset) ∧
    (∀ b, b < f.size ↔
       ∃ j ∈ makeChunkJobs f.src_path f.dst_path f.size chunk_size,
         j.offset ≤ b ∧ b < j.offset + j.size) := by
  refine ⟨?_, ?_, makeChunkJobs_length _ _ _ _, ?_, ?_, ?_⟩
  · intro dst' msgs jobs heq hne
    cases hsd : src.getFile f.src_path with
    | none =>
        simp only [producerFile, hsd] at heq
        cases heq
        exact absurd rfl hne
    | some sd =>
        simp only [producerFile, hsd] at heq
        by_cases hskip : metadataSkip sd (dst.getFile f.dst_path) = true
        · simp only [hskip, if_true] at heq
          cases heq
          exact absurd rfl hne
        · simp only [hskip, if_false] at heq
          by_cases hsmall : ((dst.getFile f.dst_path).isNone ||
              decide (f.size < LARGE_FILE_THRESHOLD)) = true
          · simp only [hsmall, if_true] at heq
            cases hc : fsCopy src dst f.src_path f.dst_path now with
            | none => simp only [hc] at heq; cases heq; exact absurd rfl hne
            | some out =>
                simp only [hc] at heq
                cases heq
                exact absurd rfl hne
          · simp only [hsmall, if_false] at heq
            cases heq
            rw [Bool.or_eq_true, not_or] at hsmall
            have h1 : (dst.getFile f.dst_path).isSome = true := by
              cases h : dst.getFile f.dst_path with
              | none => exact absurd (by rw [h]; rfl) hsmall.1
              | some dd => rfl
            have h2 : LARGE_FILE_THRESHOLD ≤ f.size := by
              have := hsmall.2
              simp only [decide_eq_true_eq, Nat.not_lt] at this
              exact this
            exact ⟨h1, h2, ⟨sd, rfl, Bool.of_not_eq_true hskip⟩, rfl, rfl, rfl⟩
  · intro sd dd hsd hdd hskip hbig
    have hlt : decide (f.size < LARGE_FILE_THRESHOLD) = false :=
      decide_eq_false (by omega)
    simp only [producerFile, hsd, hdd, hskip, Bool.false_eq_true, if_false,
      Option.isNone_some, Bool.false_or, hlt]
  · intro i h
    rw [makeChunkJobs_get]
    exact ⟨rfl, chunk_size_eq_min _ _ _⟩
  · intro i j hi hj hij
    exact chunkJobs_disjoint _ _ _ _ _ _ hi hj hij
  · intro b
    exact chunkJobs_cover _ _ _ _ hcs b

/-- C3 witness: the amended theorem applied at chunk size 2 and file size 5
(three jobs: offsets 0, 2, 4, sizes 2, 2, 1). -/
theorem chunk_job_generation_witness :
    (0 : Nat) < 2 ∧
    (makeChunkJobs ["s"] ["d"] 5 2).length = numChunks 5 2 ∧ numChunks 5 2 = 3 :=
  ⟨by decide,
   (chunk_job_generation (FS.mk [] [] []) (FS.mk [] [] []) 2 (0, 0)
      ⟨["s"], ["d"], 5⟩ (by decide)).2.2.1,
   by decide⟩

/-- One engine step preserves the sender invariant and can neither retire
a worker nor end the progress thread: the exit guards demand a fully
disconnected channel, which the retained original senders forbid. -/
theorem engineStep_preserves (src : FS) (chunk_size : Nat) (now : Int × Int)
    (st st' : EngineState) (h : EngineStep src chunk_size now st st')
    (hinv : engineInv st) :
    engineInv st' ∧ st'.workers = st.workers ∧
      st'.progress_alive = st.progress_alive := by
  obtain ⟨h1, h2, h3, h4⟩ := hinv
  cases h with
  | produce f rest st hp ha =>
      exact ⟨⟨h1, h2, h3, h4⟩, rfl, rfl⟩
  | producer_exit st hp ha =>
      have h2' := h2 ha
      have h4' := h4 ha
      refine ⟨⟨?_, ?_, ?_, ?_⟩, rfl, rfl⟩
      · show 1 ≤ st.job_senders - 1
        omega
      · intro hfalse
        exact (Bool.false_ne_true hfalse).elim
      · show 1 + st.workers ≤ st.done_senders - 1
        omega
      · intro hfalse
        exact (Bool.false_ne_true hfalse).elim
  | consume j rest st hq hw =>
      exact ⟨⟨h1, h2, h3, h4⟩, rfl, rfl⟩
  | worker_exit st hq hs hw =>
      exfalso
      omega
  | progress_exit st hs ha =>
      exfalso
      omega

/-- Along every run of the job system from an invariant state, the worker
count and the progress thread's liveness never change. -/
theorem engineReach_invariant (src : FS) (chunk_size : Nat) (now : Int × Int)
    (st0 st : EngineState)
    (hreach : Relation.ReflTransGen (EngineStep src chunk_size now) st0 st)
    (hinv : engineInv st0) :
    engineInv st ∧ st.workers = st0.workers ∧
      st.progress_alive = st0.progress_alive := by
  induction hreach with
  | refl => exact ⟨hinv, rfl, rfl⟩
  | tail hab hbc ih =>
      obtain ⟨hi, hw, hp⟩ := ih
      obtain ⟨hi', hw', hp'⟩ := engineStep_preserves src chunk_size now _ _ hbc hi
      exact ⟨hi', hw'.trans hw, hp'.trans hp⟩

/-- C1 (code bug): an invocation whose discovery walk succeeds never
returns — the model's first component is `none` (no `Result` is ever
produced) — and in the job-system machine every state reachable from the
initial state of an invocation keeps all `n` workers and the progress
thread alive: since the original `job_tx`/`done_tx` senders of sync.rs
lines 101-102 are never dropped, no worker can leave `job_rx.iter()` and
the progress thread can never leave `done_rx.iter()`, so the joins at
lines 284-287 block forever.  The concrete conjunct evaluates the engine
at an empty source tree. -/
theorem sync_joins_block_forever :
    (∀ (src : FS) (src_root dst_root : FPath) (chunk_size : Nat) (now : Int × Int)
       (entries : List (Except String WalkEntry)) (dst dst1 : FS)
       (files : List FileJob),
       syncWalk src src_root dst_root entries dst = (dst1, Except.ok files) →
       (sync_dir_chunked src src_root dst_root chunk_size now entries dst).1 =
         none) ∧
    (∀ (src : FS) (chunk_size : Nat) (now : Int × Int) (n : Nat)
       (files : List FileJob) (dst : FS) (st : EngineState),
       Relation.ReflTransGen (EngineStep src chunk_size now)
         (engineInit n files dst) st →
       st.workers = n ∧ st.progress_alive = true) ∧
    (sync_dir_chunked (FS.mk [] [] []) ["s"] ["d"] 4 (0, 0) []
       (FS.mk [] [] [])).1 = none := by
  refine ⟨?_, ?_, rfl⟩
  · intro src src_root dst_root chunk_size now entries dst dst1 files hwalk
    unfold sync_dir_chunked
    rw [hwalk]
  · intro src chunk_size now n files dst st hreach
    have hinv : engineInv (engineInit n files dst) :=
      ⟨by show (1 : Nat) ≤ 2; omega, fun _ => by show (2 : Nat) ≤ 2; omega,
       by show 1 + n ≤ 2 + n; omega, fun _ => by show 2 + n ≤ 2 + n; omega⟩
    obtain ⟨_, hw, hp⟩ :=
      engineReach_invariant src chunk_size now _ st hreach hinv
    exact ⟨hw, hp⟩

/-- C1 witness: the theorem applied at an empty source tree (a successful
walk with no files) and at the initial machine state itself. -/
theorem sync_joins_block_forever_witness :
    (sync_dir_chunked (FS.mk [] [] []) ["a"] ["b"] 4 (0, 0) []
       (FS.mk [] [] [])).1 = none ∧
    (engineInit 2 [] (FS.mk [] [] [])).workers = 2 :=
  ⟨sync_joins_block_forever.1 (FS.mk [] [] []) ["a"] ["b"] 4 (0, 0) []
     (FS.mk [] [] []) (FS.mk [] [] []) [] rfl,
   (sync_joins_block_forever.2.1 (FS.mk [] [] []) 4 (0, 0) 2 [] (FS.mk [] [] [])
     (engineInit 2 [] (FS.mk [] [] [])) Relation.ReflTransGen.refl).1⟩

/-- C4: for a chunk job whose destination opens for read+write (present,
readable and writable, with the seek succeeding), the worker writes the
source chunk at exactly the job's offset if and only if the byte count
read from the destination differs from the byte count read from the
source or the two Adler-32 checksums differ; when both match nothing is
written; in either case the progress message is the source chunk's byte
count. -/
theorem chunk_worker_write_iff (src dst : FS) (job : ChunkJob) (sd dd : FileData)
    (hs : src.getFile job.src_path = some sd) (hsr : sd.readable = true)
    (hd : dst.getFile job.dst_path = some dd) (hdr : dd.readable = true)
    (hdw : dd.writable = true)
    (hn : readChunk sd.content job.offset job.size ≠ []) :
    ((workerChunk src dst job).2.2 = true ↔
       ((readChunk sd.content job.offset job.size).length ≠
          (readChunk dd.content job.offset
             (readChunk sd.content job.offset job.size).length).length ∨
        adler32 (readChunk sd.content job.offset job.size) ≠
          adler32 (readChunk dd.content job.offset
             (readChunk sd.content job.offset job.size).length))) ∧
    ((workerChunk src dst job).2.2 = true →
       workerChunk src dst job =
         (dst.setFile job.dst_path
            { dd with content := (writeAt dd.content job.offset
                (readChunk sd.content job.offset job.size)) },
          (readChunk sd.content job.offset job.size).length, true)) ∧
    ((workerChunk src dst job).2.2 = false →
       workerChunk src dst job =
         (dst, (readChunk sd.content job.offset job.size).length, false)) ∧
    (workerChunk src dst job).2.1 =
      (readChunk sd.content job.offset job.size).length := by
  have hn0 : ¬ (readChunk sd.content job.offset job.size).length = 0 := by
    simpa [List.length_eq_zero] using hn
  have hwc : write_chunk dst job.dst_path job.offset
      (readChunk sd.content job.offset job.size) =
      dst.setFile job.dst_path
        { dd with content := (writeAt dd.content job.offset
            (readChunk sd.content job.offset job.size)) } := by
    simp only [write_chunk, hd, hdw, if_true]
  by_cases hdiff : ((readChunk sd.content job.offset job.size).length ≠
      (readChunk dd.content job.offset
         (readChunk sd.content job.offset job.size).length).length ∨
      adler32 (readChunk sd.content job.offset job.size) ≠
        adler32 (readChunk dd.content job.offset
           (readChunk sd.content job.offset job.size).length))
  · have hcond : (decide ((readChunk sd.content job.offset job.size).length ≠
        (readChunk dd.content job.offset
           (readChunk sd.content job.offset job.size).length).length) ||
        decide (adler32 (readChunk sd.content job.offset job.size) ≠
          adler32 (readChunk dd.content job.offset
             (readChunk sd.content job.offset job.size).length))) = true := by
      rcases hdiff with h | h
      · simp [h]
      · simp [h]
    have hres : workerChunk src dst job =
        (dst.setFile job.dst_path
           { dd with content := (writeAt dd.content job.offset
               (readChunk sd.content job.offset job.size)) },
         (readChunk sd.content job.offset job.size).length, true) := by
      simp only [workerChunk, hs, hsr, Bool.not_true, Bool.false_eq_true, if_false,
        hn0, hd, hdr, hdw, Bool.and_self, if_true, hcond, hwc]
    refine ⟨?_, fun _ => hres, ?_, ?_⟩
    · rw [hres]
      exact ⟨fun _ => hdiff, fun _ => rfl⟩
    · rw [hres]
      intro h
      exact absurd h (by simp)
    · rw [hres]
  · have hcond : (decide ((readChunk sd.content job.offset job.size).length ≠
        (readChunk dd.content job.offset
           (readChunk sd.content job.offset job.size).length).length) ||
        decide (adler32 (readChunk sd.content job.offset job.size) ≠
          adler32 (readChunk dd.content job.offset
             (readChunk sd.content job.offset job.size).length))) = false := by
      rw [not_or] at hdiff
      simp [hdiff.1, hdiff.2]
    have hres : workerChunk src dst job =
        (dst, (readChunk sd.content job.offset job.size).length, false) := by
      simp only [workerChunk, hs, hsr, Bool.not_true, Bool.false_eq_true, if_false,
        hn0, hd, hdr, hdw, Bool.and_self, if_true, hcond]
    refine ⟨?_, ?_, fun _ => hres, ?_⟩
    · rw [hres]
      simp only [Bool.false_eq_true, false_iff]
      exact fun h => hdiff h
    · rw [hres]
      intro h
      exact absurd h (by simp)
    · rw [hres]

/-- C4 witness: a one-byte chunk whose destination byte differs, applied
to the theorem at a concrete filesystem. -/
theorem chunk_worker_write_iff_witness :
    (workerChunk (FS.mk [(["s", "f"], ⟨[1, 2], 0, 0, true, true⟩)] [] [])
       (FS.mk [(["d", "f"], ⟨[1, 9], 0, 0, true, true⟩)] [] [])
       ⟨["s", "f"], ["d", "f"], 1, 1, 1⟩).2.1 =
      (readChunk [1, 2] 1 1).length :=
  (chunk_worker_write_iff
     (FS.mk [(["s", "f"], ⟨[1, 2], 0, 0, true, true⟩)] [] [])
     (FS.mk [(["d", "f"], ⟨[1, 9], 0, 0, true, true⟩)] [] [])
     ⟨["s", "f"], ["d", "f"], 1, 1, 1⟩
     ⟨[1, 2], 0, 0, true, true⟩ ⟨[1, 9], 0, 0, true, true⟩
     (by decide) (by decide) (by decide) (by decide) (by decide)
     (by decide)).2.2.2

/-- C5 counterexample: a chunk job whose destination exists but is not
writable (so neither the read+write open nor `write_chunk`'s write-only
open succeeds) takes the fallback path, yet the destination filesystem
comes back byte-for-byte unchanged — nothing is materialized — while
progress still advances by the chunk's byte count; likewise an absent
destination stays absent, since `write_chunk` opens without create and
its error is discarded. -/
theorem chunk_fallback_not_materializing_cex :
    workerChunk (FS.mk [(["s", "f"], ⟨[5], 0, 0, true, true⟩)] [] [])
      (FS.mk [(["d", "f"], ⟨[9], 0, 0, true, false⟩)] [] [])
      ⟨["s", "f"], ["d", "f"], 0, 0, 1⟩ =
      (FS.mk [(["d", "f"], ⟨[9], 0, 0, true, false⟩)] [] [], 1, true) ∧
    workerChunk (FS.mk [(["s", "f"], ⟨[5], 0, 0, true, true⟩)] [] [])
      (FS.mk [] [] []) ⟨["s", "f"], ["d", "f"], 0, 0, 1⟩ =
      (FS.mk [] [] [], 1, true) := by
  exact ⟨rfl, rfl⟩

/-- C5 (amended): for a chunk job whose destination cannot be opened for
read+write, the worker falls back to attempting the `write_chunk` of the
source chunk at the job's offset unconditionally — no checksum comparison
happens — and always reports the source chunk's byte count to progress;
but the fallback write itself materializes the chunk only when the
destination file exists and is writable (then the bytes land at exactly
that offset): `write_chunk` opens without create and its error is
discarded, so an absent or unwritable destination stays unwritten while
progress still advances. -/
theorem chunk_worker_fallback_unconditional (src dst : FS) (job : ChunkJob)
    (sd : FileData)
    (hs : src.getFile job.src_path = some sd) (hsr : sd.readable = true)
    (hn : readChunk sd.content job.offset job.size ≠ [])
    (hrw : ∀ dd, dst.getFile job.dst_path = some dd →
       ¬ (dd.readable = true ∧ dd.writable = true)) :
    workerChunk src dst job =
      (write_chunk dst job.dst_path job.offset
         (readChunk sd.content job.offset job.size),
       (readChunk sd.content job.offset job.size).length, true) ∧
    (∀ dd, dst.getFile job.dst_path = some dd → dd.writable = true →
       (write_chunk dst job.dst_path job.offset
          (readChunk sd.content job.offset job.size)).getFile job.dst_path =
         some { dd with content := (writeAt dd.content job.offset
             (readChunk sd.content job.offset job.size)) }) ∧
    (∀ dd, dst.getFile job.dst_path = some dd → dd.writable = false →
       write_chunk dst job.dst_path job.offset
         (readChunk sd.content job.offset job.size) = dst) ∧
    (dst.getFile job.dst_path = none →
       write_chunk dst job.dst_path job.offset
         (readChunk sd.content job.offset job.size) = dst) := by
  have hn0 : ¬ (readChunk sd.content job.offset job.size).length = 0 := by
    simpa [List.length_eq_zero] using hn
  refine ⟨?_, ?_, ?_, ?_⟩
  · cases hdd : dst.getFile job.dst_path with
    | none =>
        simp only [workerChunk, hs, hsr, Bool.not_true, Bool.false_eq_true, if_false,
          hn0, hdd]
    | some dd =>
        have hb : (dd.readable && dd.writable) = false := by
          have := hrw dd hdd
          cases hr : dd.readable <;> cases hw : dd.writable <;> simp_all
        simp only [workerChunk, hs, hsr, Bool.not_true, Bool.false_eq_true, if_false,
          hn0, hdd, hb]
  · intro dd hdd hw
    simp only [write_chunk, hdd, hw, if_true]
    exact getFile_setFile_self _ _ _
  · intro dd hdd hw
    simp only [write_chunk, hdd, hw, Bool.false_eq_true, if_false]
  · intro hnone
    simp only [write_chunk, hnone]

/-- C5 witness: destination file present but not readable, so the
read+write open fails and the fallback write lands the chunk. -/
theorem chunk_worker_fallback_witness :
    workerChunk (FS.mk [(["s", "f"], ⟨[5], 0, 0, true, true⟩)] [] [])
      (FS.mk [(["d", "f"], ⟨[9], 0, 0, false, true⟩)] [] [])
      ⟨["s", "f"], ["d", "f"], 0, 0, 1⟩ =
      (write_chunk (FS.mk [(["d", "f"], ⟨[9], 0, 0, false, true⟩)] [] [])
         ["d", "f"] 0 (readChunk [5] 0 1),
       (readChunk [5] 0 1).length, true) :=
  (chunk_worker_fallback_unconditional
     (FS.mk [(["s", "f"], ⟨[5], 0, 0, true, true⟩)] [] [])
     (FS.mk [(["d", "f"], ⟨[9], 0, 0, false, true⟩)] [] [])
     ⟨["s", "f"], ["d", "f"], 0, 0, 1⟩ ⟨[5], 0, 0, true, true⟩
     (by decide) (by decide) (by decide)
     (by intro dd hdd
         have h2 : (⟨[9], 0, 0, false, true⟩ : FileData) = dd := Option.some.inj hdd
         subst h2
         decide)).1

/-- Members of the file section of the delete queue carry the file tag. -/
theorem mem_deleteFilesQueue_snd (entries : List (Except String DelEntry))
    (include? exclude? : Option (FPath → Bool)) (x : FPath × Bool)
    (hx : x ∈ deleteFilesQueue entries include? exclude?) : x.2 = false := by
  simp only [deleteFilesQueue, List.mem_map] at hx
  obtain ⟨d, _, rfl⟩ := hx
  rfl

/-- Members of the directory section of the delete queue carry the dir tag. -/
theorem mem_deleteDirsPart_snd (entries : List (Except String DelEntry))
    (include? exclude? : Option (FPath → Bool)) (x : FPath × Bool)
    (hx : x ∈ (deleteSortedDirs entries include? exclude?).map (fun p => (p, true))) :
    x.2 = true := by
  simp only [List.mem_map] at hx
  obtain ⟨p, _, rfl⟩ := hx
  rfl

/-- The sorted directory buffer is pairwise ordered by descending depth. -/
theorem deleteSortedDirs_sorted (entries : List (Except String DelEntry))
    (include? exclude? : Option (FPath → Bool)) :
    List.Pairwise (fun a b => pathDepth b ≤ pathDepth a)
      (deleteSortedDirs entries include? exclude?) := by
  letI : IsTotal FPath (fun a b => pathDepth b ≤ pathDepth a) :=
    ⟨fun a b => Nat.le_total _ _⟩
  letI : IsTrans FPath (fun a b => pathDepth b ≤ pathDepth a) :=
    ⟨fun _ _ _ h1 h2 => le_trans h2 h1⟩
  exact List.sorted_insertionSort _ _

/-- In a concatenation whose second part is all dir-tagged, an index
holding a file tag lies in the first part. -/
theorem get_append_snd_false_lt (A B : List (FPath × Bool))
    (hB : ∀ x ∈ B, x.2 = true) (i : Nat) (hi : i < (A ++ B).length)
    (hf : ((A ++ B).get ⟨i, hi⟩).2 = false) : i < A.length := by
  by_contra hge
  push_neg at hge
  have hlt : i - A.length < B.length := by
    rw [List.length_append] at hi
    omega
  rw [List.get_eq_getElem, List.getElem_append_right hge] at hf
  have := hB _ (List.getElem_mem hlt)
  rw [this] at hf
  cases hf

/-- In a concatenation whose first part is all file-tagged, an index
holding a dir tag lies in the second part. -/
theorem get_append_snd_true_ge (A B : List (FPath × Bool))
    (hA : ∀ x ∈ A, x.2 = false) (i : Nat) (hi : i < (A ++ B).length)
    (ht : ((A ++ B).get ⟨i, hi⟩).2 = true) : A.length ≤ i := by
  by_contra hlt
  push_neg at hlt
  rw [List.get_eq_getElem, List.getElem_append_left hlt] at ht
  have := hA _ (List.getElem_mem hlt)
  rw [this] at ht
  cases ht

/-- A dir-tagged queue slot holds the sorted-dirs element at its offset
into the directory section. -/
theorem deleteQueue_get_dir (entries : List (Except String DelEntry))
    (include? exclude? : Option (FPath → Bool)) (i : Nat)
    (hi : i < (deleteQueue entries include? exclude?).length)
    (hge : (deleteFilesQueue entries include? exclude?).length ≤ i)
    (hlt : i - (deleteFilesQueue entries include? exclude?).length <
      (deleteSortedDirs entries include? exclude?).length) :
    (deleteQueue entries include? exclude?).get ⟨i, hi⟩ =
      ((deleteSortedDirs entries include? exclude?).get
        ⟨i - (deleteFilesQueue entries include? exclude?).length, hlt⟩, true) := by
  show (deleteFilesQueue entries include? exclude? ++
    (deleteSortedDirs entries include? exclude?).map (fun p => (p, true))).get ⟨i, hi⟩ = _
  rw [List.get_eq_getElem, List.getElem_append_right hge, List.getElem_map,
    List.get_eq_getElem]

/-- Index bound for the directory section of the delete queue. -/
theorem deleteQueue_dir_offset_lt (entries : List (Except String DelEntry))
    (include? exclude? : Option (FPath → Bool)) (i : Nat)
    (hi : i < (deleteQueue entries include? exclude?).length)
    (hge : (deleteFilesQueue entries include? exclude?).length ≤ i) :
    i - (deleteFilesQueue entries include? exclude?).length <
      (deleteSortedDirs entries include? exclude?).length := by
  have hlen : (deleteQueue entries include? exclude?).length =
      (deleteFilesQueue entries include? exclude?).length +
      (deleteSortedDirs entries include? exclude?).length := by
    show (deleteFilesQueue entries include? exclude? ++
      (deleteSortedDirs entries include? exclude?).map (fun p => (p, true))).length = _
    rw [List.length_append, List.length_map]
  omega

/-- Depth comparison across the directory section: a dir slot never sits
before a strictly shallower dir slot. -/
theorem deleteQueue_dirs_depth_le (entries : List (Except String DelEntry))
    (include? exclude? : Option (FPath → Bool)) (i j : Nat)
    (hi : i < (deleteQueue entries include? exclude?).length)
    (hj : j < (deleteQueue entries include? exclude?).length) (hij : i ≤ j)
    (h1 : ((deleteQueue entries include? exclude?).get ⟨i, hi⟩).2 = true)
    (h2 : ((deleteQueue entries include? exclude?).get ⟨j, hj⟩).2 = true) :
    pathDepth ((deleteQueue entries include? exclude?).get ⟨j, hj⟩).1 ≤
      pathDepth ((deleteQueue entries include? exclude?).get ⟨i, hi⟩).1 := by
  have hAi := get_append_snd_true_ge _ _
    (fun x hx => mem_deleteFilesQueue_snd entries include? exclude? x hx) i hi h1
  have hAj := get_append_snd_true_ge _ _
    (fun x hx => mem_deleteFilesQueue_snd entries include? exclude? x hx) j hj h2
  have hlti := deleteQueue_dir_offset_lt entries include? exclude? i hi hAi
  have hltj := deleteQueue_dir_offset_lt entries include? exclude? j hj hAj
  rw [deleteQueue_get_dir entries include? exclude? i hi hAi hlti,
    deleteQueue_get_dir entries include? exclude? j hj hAj hltj]
  rcases Nat.eq_or_lt_of_le hij with rfl | hlt
  · exact le_refl _
  · have hfin : (⟨i - (deleteFilesQueue entries include? exclude?).length, hlti⟩ :
        Fin (deleteSortedDirs entries include? exclude?).length) <
        ⟨j - (deleteFilesQueue entries include? exclude?).length, hltj⟩ := by
      show i - (deleteFilesQueue entries include? exclude?).length <
        j - (deleteFilesQueue entries include? exclude?).length
      omega
    exact List.pairwise_iff_get.mp
      (deleteSortedDirs_sorted entries include? exclude?) _ _ hfin

/-- C6: in the delete engine's job queue every matching file is enqueued
before any directory, directories appear in non-increasing order of
path-component count (deepest first), and consequently any queue item
lying strictly below a queued directory appears strictly earlier in the
queue — so under FIFO dequeue a worker never reaches a directory before
every queued descendant of it has been dequeued. -/
theorem delete_queue_order (entries : List (Except String DelEntry))
    (include? exclude? : Option (FPath → Bool)) (i j : Nat)
    (hi : i < (deleteQueue entries include? exclude?).length)
    (hj : j < (deleteQueue entries include? exclude?).length) :
    (((deleteQueue entries include? exclude?).get ⟨i, hi⟩).2 = false →
     ((deleteQueue entries include? exclude?).get ⟨j, hj⟩).2 = true → i < j) ∧
    (i ≤ j → ((deleteQueue entries include? exclude?).get ⟨i, hi⟩).2 = true →
     ((deleteQueue entries include? exclude?).get ⟨j, hj⟩).2 = true →
     pathDepth ((deleteQueue entries include? exclude?).get ⟨j, hj⟩).1 ≤
       pathDepth ((deleteQueue entries include? exclude?).get ⟨i, hi⟩).1) ∧
    (((deleteQueue entries include? exclude?).get ⟨j, hj⟩).2 = true →
     (∃ s, s ≠ [] ∧ ((deleteQueue entries include? exclude?).get ⟨i, hi⟩).1 =
        ((deleteQueue entries include? exclude?).get ⟨j, hj⟩).1 ++ s) → i < j) := by
  refine ⟨?_, ?_, ?_⟩
  · intro hfi htj
    have h1 := get_append_snd_false_lt _ _
      (fun x hx => mem_deleteDirsPart_snd entries include? exclude? x hx) i hi hfi
    have h2 := get_append_snd_true_ge _ _
      (fun x hx => mem_deleteFilesQueue_snd entries include? exclude? x hx) j hj htj
    omega
  · exact fun hij h1 h2 =>
      deleteQueue_dirs_depth_le entries include? exclude? i j hi hj hij h1 h2
  · intro htj hdesc
    obtain ⟨s, hs0, hseq⟩ := hdesc
    have hsl : 0 < s.length := List.length_pos.mpr hs0
    have hdepth : pathDepth ((deleteQueue entries include? exclude?).get ⟨j, hj⟩).1 <
        pathDepth ((deleteQueue entries include? exclude?).get ⟨i, hi⟩).1 := by
      rw [hseq]
      simp only [pathDepth, List.length_append]
      omega
    by_cases hit : ((deleteQueue entries include? exclude?).get ⟨i, hi⟩).2 = true
    · by_contra hnot
      push_neg at hnot
      have := deleteQueue_dirs_depth_le entries include? exclude? j i hj hi hnot htj hit
      omega
    · have hif : ((deleteQueue entries include? exclude?).get ⟨i, hi⟩).2 = false :=
        Bool.not_eq_true _ ▸ hit
      have h1 := get_append_snd_false_lt _ _
        (fun x hx => mem_deleteDirsPart_snd entries include? exclude? x hx) i hi hif
      have h2 := get_append_snd_true_ge _ _
        (fun x hx => mem_deleteFilesQueue_snd entries include? exclude? x hx) j hj htj
      omega

/-- C6 witness: walk of a root directory with one file and one
subdirectory; the queue is the file first, then the deeper directory,
then the root, and the descendant ordering puts the subdirectory before
its parent. -/
theorem delete_queue_order_witness : 0 < 1 ∧ 1 < 2 :=
  ⟨(delete_queue_order
      [Except.ok ⟨["r"], EntryKind.dir⟩, Except.ok ⟨["r", "f"], EntryKind.file⟩,
       Except.ok ⟨["r", "d"], EntryKind.dir⟩] none none 0 1
      (by decide) (by decide)).1 (by decide) (by decide),
   (delete_queue_order
      [Except.ok ⟨["r"], EntryKind.dir⟩, Except.ok ⟨["r", "f"], EntryKind.file⟩,
       Except.ok ⟨["r", "d"], EntryKind.dir⟩] none none 1 2
      (by decide) (by decide)).2.2 (by decide) ⟨["d"], by decide, by decide⟩⟩

theorem getLink_setLink_self (fs : FS) (link target : FPath) :
    (fs.setLink link target).getLink link = some target := by
  simp [FS.setLink, FS.getLink, List.find?]

/-- C7 counterexample: a matching symlink in the source tree is never
enqueued by the copy engine's producer (its walk `file_type()` is not a
regular file), so a copy run leaves the destination with no entry at the
mirrored path — the symlink is omitted, not recreated. -/
theorem copy_symlink_omitted_cex :
    copyProducerJobs [Except.ok ⟨["ln"], EntryKind.symlink, 7⟩] ["src"] none none = [] ∧
    (copy [Except.ok ⟨["ln"], EntryKind.symlink, 7⟩]
       (FS.mk [] [] [(["src", "ln"], ["tgt"])]) ["src"]
       (FS.mk [] [] []) ["dst"] none none false false (0, 0)).2.1 =
      FS.mk [] [] [] := by
  exact ⟨rfl, rfl⟩

/-- C7 (amended): the engine in lib.rs `copy` enqueues only regular files
— symlinks (broken or not) are omitted from the destination — while the
`Synchronizer::sync_files` copy path does recreate each symlink at the
mirrored destination path with the `read_link` target verbatim, including
broken symlinks whose target does not exist. -/
theorem copy_omits_symlinks_sync_files_recreates :
    (∀ entries source_path include? exclude? (p : FPath) (s : Nat),
       (p, s) ∈ copyProducerJobs entries source_path include? exclude? →
       ∃ ent, Except.ok ent ∈ entries ∧ ent.kind = EntryKind.file ∧
         ent.rel = p ∧ ent.size = s) ∧
    (∀ (src snk : FS) (source_root dest_root rel target : FPath) (size : Nat),
       src.getLink (source_root ++ rel) = some target →
       ¬ (size = 0 ∧ src.isDirResolved (source_root ++ rel) = true) →
       (sync_files_step src source_root dest_root false snk
          (source_root ++ rel, size)).getLink (dest_root ++ rel) = some target) := by
  constructor
  · intro entries source_path include? exclude? p s hmem
    rw [copyProducerJobs, List.mem_filterMap] at hmem
    obtain ⟨e, he, hfe⟩ := hmem
    cases e with
    | error msg => simp at hfe
    | ok ent =>
        obtain ⟨rel, kind, size⟩ := ent
        cases kind with
        | file =>
            dsimp only at hfe
            by_cases hm : matchesFilters include? exclude? (source_path ++ rel) = true
            · rw [if_pos hm] at hfe
              have h := Option.some.inj hfe
              rw [Prod.mk.injEq] at h
              obtain ⟨rfl, rfl⟩ := h
              exact ⟨⟨rel, EntryKind.file, size⟩, he, rfl, rfl, rfl⟩
            · rw [if_neg hm] at hfe
              cases hfe
        | dir => dsimp only at hfe; exact Option.noConfusion hfe
        | symlink => dsimp only at hfe; exact Option.noConfusion hfe
        | other => dsimp only at hfe; exact Option.noConfusion hfe
  · intro src snk source_root dest_root rel target size hlink hcond
    have hbranch : ((size == 0) && src.isDirResolved (source_root ++ rel)) = false := by
      rw [Bool.and_eq_false_iff]
      by_cases h0 : size = 0
      · right
        by_contra hd
        rw [Bool.not_eq_false] at hd
        exact hcond ⟨h0, hd⟩
      · left
        simpa using h0
    have hsome : (src.getLink (source_root ++ rel)).isSome = true := by
      rw [hlink]; rfl
    simp only [sync_files_step, List.drop_left, hbranch, Bool.false_eq_true, if_false,
      hsome, if_true, hlink]
    exact getLink_setLink_self snk (dest_root ++ rel) target

/-- C7 witness: the amended theorem at a concrete enqueued file and a
concrete broken symlink (target absent at the source). -/
theorem copy_omits_symlinks_witness :
    (∃ ent : CopyEntry, (Except.ok ent : Except String CopyEntry) ∈
       [Except.ok (⟨["a"], EntryKind.file, 3⟩ : CopyEntry)] ∧
       ent.kind = EntryKind.file ∧ ent.rel = ["a"] ∧ ent.size = 3) ∧
    (sync_files_step (FS.mk [] [] [(["s", "ln"], ["gone"])]) ["s"] ["d"] false
       (FS.mk [] [] []) (["s", "ln"], 4)).getLink ["d", "ln"] = some ["gone"] :=
  ⟨copy_omits_symlinks_sync_files_recreates.1
     [Except.ok ⟨["a"], EntryKind.file, 3⟩] ["sp"] none none ["a"] 3 (by decide),
   copy_omits_symlinks_sync_files_recreates.2
     (FS.mk [] [] [(["s", "ln"], ["gone"])]) (FS.mk [] [] []) ["s"] ["d"]
     ["ln"] ["gone"] 4 (by decide) (by decide)⟩

/-- Finalisation of the shared error collector (lib.rs lines 310-317 and
552-559): empty collector yields `Ok(())`, otherwise one aggregate `Other`
error carrying the count. -/
theorem aggregate_result (e : List SyncError) (tag : String) :
    ((if e.isEmpty then Except.ok () else
        Except.error (SyncError.Other (toString e.length ++ tag))) =
       (Except.ok () : Except SyncError Unit) ↔ e = []) ∧
    (e ≠ [] →
      (if e.isEmpty then Except.ok () else
        Except.error (SyncError.Other (toString e.length ++ tag))) =
        (Except.error (SyncError.Other (toString e.length ++ tag)) :
          Except SyncError Unit)) := by
  by_cases h : e = []
  · subst h
    simp
  · have hne : e.isEmpty = false := by simpa [List.isEmpty_iff] using h
    simp [hne, h]

/-- C8 counterexample: a sync invocation whose only file's whole-file copy
fails (unreadable source) — the failure is visible as the `0` progress
message and the destination never receives the file — yet the invocation
neither returns `Ok(())` nor an aggregate error: it returns nothing at
all (the first component is `none`), because `sync_dir_chunked` collects
no per-item errors and blocks forever in its joins. -/
theorem sync_no_return_despite_item_failure_cex :
    sync_dir_chunked (FS.mk [(["s", "f"], ⟨[1, 2, 3], 0, 0, false, true⟩)] [] [])
      ["s"] ["d"] 1048576 (0, 0) [Except.ok ⟨["f"], EntryKind.file⟩]
      (FS.mk [] [] []) =
      (none, FS.mk [] [] [], [0]) := by
  rfl

/-- C8 (amended): `copy` and `delete` return `Ok(())` exactly when their
per-item error collector stayed empty and otherwise return the single
aggregate `Other` error with the failed-item count; `sync_dir_chunked`,
however, collects no per-item errors and never reaches its final
`Ok(())`: when the discovery walk succeeds it returns no value at all
(the joins deadlock), so per-item failures surface only as `0` progress
messages. -/
theorem aggregate_error_reporting :
    (∀ entries src source_path dst dest_path include? exclude? dry_run npt now,
       ((copy entries src source_path dst dest_path include? exclude?
           dry_run npt now).1 = Except.ok () ↔
        (copy entries src source_path dst dest_path include? exclude?
           dry_run npt now).2.2.2 = []) ∧
       ((copy entries src source_path dst dest_path include? exclude?
           dry_run npt now).2.2.2 ≠ [] →
        (copy entries src source_path dst dest_path include? exclude?
           dry_run npt now).1 = Except.error (SyncError.Other
          (toString (copy entries src source_path dst dest_path include? exclude?
             dry_run npt now).2.2.2.length ++ " errors occurred during copy")))) ∧
    (∀ entries include? exclude? dry_run fs,
       ((delete entries include? exclude? dry_run fs).1 = Except.ok () ↔
        (delete entries include? exclude? dry_run fs).2.2.2 = []) ∧
       ((delete entries include? exclude? dry_run fs).2.2.2 ≠ [] →
        (delete entries include? exclude? dry_run fs).1 =
          Except.error (SyncError.Other
            (toString (delete entries include? exclude? dry_run fs).2.2.2.length ++
              " errors occurred during delete")))) ∧
    (∀ src source_root dst_root chunk_size now entries dst dst1 files,
       syncWalk src source_root dst_root entries dst = (dst1, Except.ok files) →
       (sync_dir_chunked src source_root dst_root chunk_size now entries dst).1 =
         none) := by
  refine ⟨?_, ?_, ?_⟩
  · intro entries src source_path dst dest_path include? exclude? dry_run npt now
    exact aggregate_result
      ((copyProducerJobs entries source_path include? exclude?).foldl
        (copyWorkerStep src source_path dest_path dry_run npt now) (dst, [], 0)).2.1
      " errors occurred during copy"
  · intro entries include? exclude? dry_run fs
    exact aggregate_result
      ((deleteQueue entries include? exclude?).foldl (deleteWorkerStep dry_run)
        (fs, [], 0)).2.1
      " errors occurred during delete"
  · intro src source_root dst_root chunk_size now entries dst dst1 files hwalk
    unfold sync_dir_chunked
    rw [hwalk]

/-- C8 witness: an empty copy run returns `Ok` through the theorem's iff,
and an empty (successful) sync walk leaves the sync invocation with no
return value. -/
theorem aggregate_error_reporting_witness :
    (copy [] (FS.mk [] [] []) ["s"] (FS.mk [] [] []) ["d"] none none false false
       (0, 0)).1 = Except.ok () ∧
    (sync_dir_chunked (FS.mk [] [] []) ["s"] ["d"] 4 (0, 0) []
       (FS.mk [] [] [])).1 = none :=
  ⟨(aggregate_error_reporting.1 [] (FS.mk [] [] []) ["s"] (FS.mk [] [] []) ["d"]
      none none false false (0, 0)).1.mpr rfl,
   aggregate_error_reporting.2.2 (FS.mk [] [] []) ["s"] ["d"] 4 (0, 0) []
     (FS.mk [] [] []) (FS.mk [] [] []) [] rfl⟩

/-- Walking a run of successfully listed entries and then an erroring one
aborts with the wrapped walk error (the `?` at sync.rs line 59). -/
theorem syncWalk_error_mid (src : FS) (source_root dst_root : FPath) (msg : String)
    (post : List (Except String WalkEntry)) :
    ∀ pre dst, (∀ x ∈ pre, ∃ w, x = Except.ok w) →
    (syncWalk src source_root dst_root (pre ++ Except.error msg :: post) dst).2 =
      Except.error (SyncError.Other ("WalkDir error: " ++ msg)) := by
  intro pre
  induction pre with
  | nil => intro dst _; rfl
  | cons x rest ih =>
      intro dst hall
      have hhead := hall x (List.mem_cons_self x rest)
      have hrest : ∀ y ∈ rest, ∃ v, y = Except.ok v :=
        fun y hy => hall y (List.mem_cons_of_mem x hy)
      obtain ⟨w, rfl⟩ := hhead
      rw [List.cons_append]
      cases hk : w.kind with
      | dir =>
          simp only [syncWalk, hk]
          exact ih _ hrest
      | file =>
          simp only [syncWalk, hk]
          have ih' := ih dst hrest
          rcases hsw : syncWalk src source_root dst_root
            (rest ++ Except.error msg :: post) dst with ⟨d1, r⟩
          rw [hsw] at ih'
          simp only at ih'
          subst ih'
          rfl
      | symlink =>
          simp only [syncWalk, hk]
          exact ih _ hrest
      | other =>
          simp only [syncWalk, hk]
          exact ih _ hrest

/-- C9 counterexample: a traversal fault in sync is not skipped — the
engine invocation aborts with an `Other` error wrapping the walk error. -/
theorem sync_walk_error_aborts_cex :
    (sync_dir_chunked (FS.mk [] [] []) ["s"] ["d"] 4 (0, 0)
      [Except.error "boom"] (FS.mk [] [] [])).1 =
      some (Except.error (SyncError.Other "WalkDir error: boom")) := by
  rfl

/-- C9 (amended): copy and delete silently skip a walk entry that fails to
list (their producers keep only the `Ok` items, so an erroring item leaves
the job queue unchanged), but sync propagates the first traversal fault:
with any run of listable entries before it, the erroring entry makes
`sync_dir_chunked` return the wrapped walk error instead of skipping. -/
theorem traversal_fault_handling :
    (∀ e rest source_path include? exclude?,
       copyProducerJobs (Except.error e :: rest) source_path include? exclude? =
         copyProducerJobs rest source_path include? exclude?) ∧
    (∀ e rest include? exclude?,
       deleteQueue (Except.error e :: rest) include? exclude? =
         deleteQueue rest include? exclude?) ∧
    (∀ src source_root dst_root chunk_size now pre msg post dst,
       (∀ x ∈ pre, ∃ w, x = Except.ok w) →
       (sync_dir_chunked src source_root dst_root chunk_size now
         (pre ++ Except.error msg :: post) dst).1 =
         some (Except.error (SyncError.Other ("WalkDir error: " ++ msg)))) := by
  refine ⟨?_, ?_, ?_⟩
  · intro e rest source_path include? exclude?
    simp [copyProducerJobs, List.filterMap_cons]
  · intro e rest include? exclude?
    unfold deleteQueue deleteFilesQueue deleteSortedDirs deleteListed
    simp [List.filterMap_cons]
  · intro src source_root dst_root chunk_size now pre msg post dst hall
    have hmid := syncWalk_error_mid src source_root dst_root msg post pre dst hall
    unfold sync_dir_chunked
    rcases hsw : syncWalk src source_root dst_root
      (pre ++ Except.error msg :: post) dst with ⟨d1, r⟩
    rw [hsw] at hmid
    simp only at hmid
    subst hmid
    rfl

/-- C9 witness: the sync part of the amended theorem at an empty prefix. -/
theorem traversal_fault_handling_witness :
    (sync_dir_chunked (FS.mk [] [] []) ["s"] ["d"] 4 (0, 0)
      ([] ++ Except.error "x" :: []) (FS.mk [] [] [])).1 =
      some (Except.error (SyncError.Other ("WalkDir error: " ++ "x"))) :=
  traversal_fault_handling.2.2 (FS.mk [] [] []) ["s"] ["d"] 4 (0, 0) [] "x" []
    (FS.mk [] [] []) (fun x hx => absurd hx (List.not_mem_nil x))

/-- In dry-run mode one copy job only advances progress by its declared
size. -/
theorem copy_fold_dry_run (src : FS) (source_path dest_path : FPath) (npt : Bool)
    (now : Int × Int) (jobs : List (FPath × Nat)) :
    ∀ dst errs prog,
      jobs.foldl (copyWorkerStep src source_path dest_path true npt now)
        (dst, errs, prog) =
      (dst, errs, prog + (jobs.map (fun j => j.2)).sum) := by
  induction jobs with
  | nil => intro dst errs prog; simp
  | cons j t ih =>
      intro dst errs prog
      rw [List.foldl_cons]
      have hstep : copyWorkerStep src source_path dest_path true npt now
          (dst, errs, prog) j = (dst, errs, prog + j.2) := rfl
      rw [hstep, ih]
      simp [Nat.add_assoc]

/-- In dry-run mode a delete job changes nothing at all. -/
theorem delete_fold_dry_run (q : List (FPath × Bool)) :
    ∀ st, q.foldl (deleteWorkerStep true) st = st := by
  induction q with
  | nil => intro st; rfl
  | cons j t ih =>
      intro st
      rw [List.foldl_cons]
      have hstep : deleteWorkerStep true st j = st := rfl
      rw [hstep, ih]

/-- C10: with `dry_run = true`, copy and delete mutate nothing — the
destination tree and target tree come back exactly as given, no directory
is created, no file written, nothing deleted, and no error collected —
while copy still advances progress by every job's declared size (so a dry
run reports the totals a real run would) and both return `Ok(())`. -/
theorem dry_run_no_mutation (entries_c : List (Except String CopyEntry)) (src : FS)
    (source_path dest_path : FPath) (dst : FS)
    (include? exclude? : Option (FPath → Bool)) (npt : Bool) (now : Int × Int)
    (entries_d : List (Except String DelEntry))
    (include2? exclude2? : Option (FPath → Bool)) (fs : FS) :
    copy entries_c src source_path dst dest_path include? exclude? true npt now =
      (Except.ok (), dst,
       ((copyProducerJobs entries_c source_path include? exclude?).map
         (fun j => j.2)).sum, []) ∧
    delete entries_d include2? exclude2? true fs = (Except.ok (), fs, 0, []) := by
  constructor
  · show (let jobs := copyProducerJobs entries_c source_path include? exclude?
          let r := jobs.foldl (copyWorkerStep src source_path dest_path true npt now)
            (dst, [], 0)
          (if r.2.1.isEmpty then Except.ok () else Except.error (SyncError.Other
            (toString r.2.1.length ++ " errors occurred during copy")),
           r.1, r.2.2, r.2.1)) = _
    dsimp only
    rw [copy_fold_dry_run src source_path dest_path npt now
      (copyProducerJobs entries_c source_path include? exclude?) dst [] 0]
    simp
  · show (let r := (deleteQueue entries_d include2? exclude2?).foldl
            (deleteWorkerStep true) (fs, [], 0)
          (if r.2.1.isEmpty then Except.ok () else Except.error (SyncError.Other
            (toString r.2.1.length ++ " errors occurred during delete")),
           r.1, r.2.2, r.2.1)) = _
    dsimp only
    rw [delete_fold_dry_run (deleteQueue entries_d include2? exclude2?) (fs, [], 0)]
    simp

end Parsync
